import Mathlib

/-!
Shallow embedding of the customer repository service
(`CustomerService` in the source: in-memory CRUD over a customer list,
derived health scoring, filtering, search, pagination, statistics).

Modelling conventions:
* JS strings are Lean `String`s viewed as their `List Char` data
  (ASCII-faithful; JS `trim`/`toLowerCase`/`includes`/`length` are
  re-implemented below on char lists so that all definitions reduce in the
  kernel).
* JS `number` values that carry scores or bounds are `ℚ` (the source never
  exercises float rounding on them except via `Math.round`, modelled by
  Mathlib's `round`, which agrees with JS `Math.round` on halves:
  both are `⌊x + 1/2⌋`).
* Timestamps (`createdAt`/`updatedAt`, ISO strings in the source) are
  integer milliseconds; `Date.now()` is threaded through as a `now` argument.
* `undefined`-able fields are `Option`; JS truthiness of an optional string
  is `truthyStr` (defined = `some s` with `s ≠ ""`).
* Thrown service errors are caught by the source's `handleError` and turned
  into `{success:false, error, code}`; operations here return `SResult`
  directly, with `.err code msg` for that failure shape.
-/

namespace CustomerSvc

/-! ### JS string primitives (ASCII semantics, on `List Char`) -/

/-- JS `String.prototype.trim` (ASCII whitespace). -/
def trimList (l : List Char) : List Char :=
  ((l.dropWhile Char.isWhitespace).reverse.dropWhile Char.isWhitespace).reverse

/-- JS `trim` on `String`. -/
def jsTrim (s : String) : String := ⟨trimList s.data⟩

/-- JS `toLowerCase` (ASCII letters). -/
def jsToLower (s : String) : String := ⟨s.data.map Char.toLower⟩

/-- `needle` is a prefix of `hay` (on char lists). -/
def isPrefixList : List Char → List Char → Bool
  | [], _ => true
  | _ :: _, [] => false
  | a :: as, b :: bs => a == b && isPrefixList as bs

/-- `needle` occurs contiguously inside `hay` (on char lists). -/
def listContains (hay needle : List Char) : Bool :=
  isPrefixList needle hay ||
    match hay with
    | [] => false
    | _ :: t => listContains t needle

/-- JS `haystack.includes(needle)`: substring containment. -/
def jsIncludes (hay needle : String) : Bool := listContains hay.data needle.data

/-- JS `String.prototype.length` (code-unit count; char count for ASCII). -/
def jsLength (s : String) : Nat := s.data.length

/-- JS truthiness of an optional string (`undefined` and `""` are falsy). -/
def truthyStr : Option String → Bool
  | none => false
  | some s => s != ""

/-! ### Regex validators

`isValidEmail` embeds the test of `/^[^\s@]+@[^\s@]+\.[^\s@]+$/` against the
trimmed email: the string must decompose as `A@R` at its unique `@`, with
`A` nonempty and whitespace/`@`-free, `R` whitespace/`@`-free, and `R`
containing a dot at an interior position (so that both regex parts around
the dot are nonempty; note `[^\s@]+` itself admits dots, hence *any*
interior dot of `R` witnesses a match).

`isValidDomain` embeds
`/^[a-zA-Z0-9][a-zA-Z0-9-]*[a-zA-Z0-9]*\.([a-zA-Z]{2,}(\.[a-zA-Z]{2,})*)$/`
on the trimmed string, conjoined with `domain.length <= 253` on the raw
string: the part before the first dot is a nonempty alnum-led
alnum-or-hyphen label, and every later dot-separated part is alphabetic of
length at least 2. -/

/-- Character class `[^\s@]`. -/
def emailChar (c : Char) : Bool := !c.isWhitespace && c != '@'

/-- Split a char list at the first occurrence of `c` (none if `c` absent). -/
def splitAtChar (c : Char) : List Char → Option (List Char × List Char)
  | [] => none
  | x :: xs =>
    if x = c then some ([], xs)
    else
      match splitAtChar c xs with
      | some (a, b) => some (x :: a, b)
      | none => none

/-- Source `isValidEmail` (regex test on the trimmed email). -/
def isValidEmail (email : String) : Bool :=
  match splitAtChar '@' (jsTrim email).data with
  | none => false
  | some (localPart, rest) =>
    localPart != [] && localPart.all emailChar && rest.all emailChar &&
      ((rest.drop 1).dropLast.contains '.')

/-- Character class `[a-zA-Z0-9]`. -/
def alnum (c : Char) : Bool := c.isAlpha || c.isDigit

/-- Split a char list on every occurrence of `c` (like `String.split`). -/
def splitOnChar (c : Char) : List Char → List (List Char)
  | [] => [[]]
  | x :: xs =>
    if x = c then [] :: splitOnChar c xs
    else
      match splitOnChar c xs with
      | [] => [[x]]
      | h :: t => (x :: h) :: t

/-- `[a-zA-Z0-9][a-zA-Z0-9-]*[a-zA-Z0-9]*`: nonempty, alnum first char,
alnum-or-hyphen afterwards. -/
def labelOk : List Char → Bool
  | [] => false
  | c :: cs => alnum c && cs.all (fun d => alnum d || d == '-')

/-- `[a-zA-Z]{2,}`: alphabetic, length at least 2. -/
def tldOk (l : List Char) : Bool := decide (2 ≤ l.length) && l.all Char.isAlpha

/-- Source `isValidDomain` (regex test on trimmed string, plus raw length
bound 253). -/
def isValidDomain (domain : String) : Bool :=
  (match splitOnChar '.' (jsTrim domain).data with
    | [] => false
    | p :: rest => rest != [] && labelOk p && rest.all tldOk)
  && decide (jsLength domain ≤ 253)

/-! ### Data model -/

/-- `'basic' | 'premium' | 'enterprise'`. -/
inductive Tier where
  | basic
  | premium
  | enterprise
deriving DecidableEq, Repr

def tierToString : Tier → String
  | .basic => "basic"
  | .premium => "premium"
  | .enterprise => "enterprise"

/-- The `Customer` record as stored by the service. -/
structure Customer where
  id : String
  name : String
  company : String
  email : Option String
  subscriptionTier : Tier
  domains : List String
  healthScore : ℚ
  createdAt : ℤ
  updatedAt : ℤ
deriving DecidableEq, Repr

/-- `CustomerCreateInput`. -/
structure CustomerCreateInput where
  name : String
  company : String
  email : Option String := none
  subscriptionTier : Option Tier := none
  domains : Option (List String) := none
deriving DecidableEq, Repr

/-- `CustomerUpdateInput`. -/
structure CustomerUpdateInput where
  name : Option String := none
  company : Option String := none
  email : Option String := none
  subscriptionTier : Option Tier := none
  domains : Option (List String) := none
  healthScore : Option ℚ := none
deriving DecidableEq, Repr

/-- Error codes carried by failure responses
(`VALIDATION_ERROR`, `NOT_FOUND`, `DUPLICATE_ERROR`, `INTERNAL_ERROR`). -/
inductive ErrCode where
  | validationError
  | notFound
  | duplicateError
  | internalError
deriving DecidableEq, Repr

/-- A `ServiceResponse`: either `{success:true, data}` or
`{success:false, error, code}`. -/
inductive SResult (α : Type) where
  | ok (data : α)
  | err (code : ErrCode) (error : String)
deriving DecidableEq, Repr

def SResult.isOk {α : Type} : SResult α → Bool
  | .ok _ => true
  | .err _ _ => false

def SResult.code? {α : Type} : SResult α → Option ErrCode
  | .ok _ => none
  | .err c _ => some c

/-- Private service state: the customer array and the id counter. -/
structure ServiceState where
  customers : List Customer
  nextId : ℕ
deriving DecidableEq, Repr

/-! ### Health score computation -/

/-- Tier bonus of the `switch` in `calculateInitialHealthScore`
(no `default` branch: an absent tier adds nothing). -/
def tierBonusOpt : Option Tier → ℚ
  | some .enterprise => 30
  | some .premium => 15
  | some .basic => 5
  | none => 0

/-- Tier bonus for a stored customer (tier is always present there). -/
def tierBonus (t : Tier) : ℚ := tierBonusOpt (some t)

/-- `Math.min` on two numbers, written as its defining conditional so that
it reduces in the kernel. -/
def jsMin (a b : ℚ) : ℚ := if a ≤ b then a else b

/-- `Math.max` on two numbers. -/
def jsMax (a b : ℚ) : ℚ := if b ≤ a then a else b

theorem jsMin_eq_min (a b : ℚ) : jsMin a b = min a b := by
  simp [jsMin, min_def]

theorem jsMax_eq_max (a b : ℚ) : jsMax a b = max a b := by
  rw [jsMax, max_def]
  rcases le_total a b with h | h
  · rcases eq_or_lt_of_le h with rfl | hlt
    · simp
    · rw [if_pos h, if_neg (not_le.mpr hlt)]
  · rw [if_pos h]
    rcases eq_or_lt_of_le h with rfl | hlt
    · simp
    · rw [if_neg (not_le.mpr hlt)]

/-- `Math.min(domains.length * 5, 20)` guarded by `if (input.domains)`
(an empty array is truthy in JS, but contributes `min(0,20) = 0` anyway). -/
def domainsBonus : Option (List String) → ℚ
  | none => 0
  | some ds => jsMin ((5 : ℚ) * ds.length) 20

/-- `+10` when the optional email is truthy. -/
def emailBonus (e : Option String) : ℚ := if truthyStr e then 10 else 0

/-- `Math.min(Math.max(score, 0), 100)`. -/
def clampScore (q : ℚ) : ℚ := jsMin (jsMax q 0) 100

/-- The pre-clamp sum of `calculateInitialHealthScore`. -/
def rawInitialScore (input : CustomerCreateInput) : ℚ :=
  50 + tierBonusOpt input.subscriptionTier + domainsBonus input.domains
    + emailBonus input.email

/-- Source `calculateInitialHealthScore`. -/
def calculateInitialHealthScore (input : CustomerCreateInput) : ℚ :=
  clampScore (rawInitialScore input)

/-- Milliseconds per day (`1000 * 60 * 60 * 24`). -/
def msPerDay : ℚ := 86400000

/-- Source `calculateHealthScore` (update-time recompute): base 50, tier and
domain and email bonuses on the stored record, plus the account-age bonus
`min(daysSinceCreation / 10, 15)` where
`daysSinceCreation = (Date.now() - createdAt) / 86400000`; then
`Math.min(Math.max(Math.round(score), 0), 100)`.
The source guards the age bonus by `if (customer.createdAt)`; createdAt is
always a nonempty ISO string for stored records, so the guard is always
taken in the model (timestamps are integer ms here). -/
def calculateHealthScore (c : Customer) (now : ℤ) : ℚ :=
  let base : ℚ := 50 + tierBonus c.subscriptionTier
    + jsMin ((5 : ℚ) * c.domains.length) 20 + emailBonus c.email
  let daysSinceCreation : ℚ := ((now - c.createdAt : ℤ) : ℚ) / msPerDay
  let score := base + jsMin (daysSinceCreation / 10) 15
  clampScore ((round score : ℤ) : ℚ)

/-! ### Validation -/

/-- Source `validateCustomerInput`: returns the first validation error
message, or `none` when the input passes.  Checks, in source order:
name nonempty after trim, company nonempty after trim, trimmed name length,
trimmed company length, email format when truthy, each domain's format.
No email-length bound and no bound on the number of domains is checked here
(those checks live in the HTTP route layer, outside this service). -/
def validateCustomerInput (input : CustomerCreateInput) : Option String :=
  if jsTrim input.name == "" then some "Customer name is required"
  else if jsTrim input.company == "" then some "Company name is required"
  else if 100 < jsLength (jsTrim input.name) then
    some "Customer name must be less than 100 characters"
  else if 100 < jsLength (jsTrim input.company) then
    some "Company name must be less than 100 characters"
  else if truthyStr input.email && !isValidEmail (input.email.getD "") then
    some "Invalid email format"
  else
    match (input.domains.getD []).find? (fun d => !isValidDomain d) with
    | some d => some ("Invalid domain format: " ++ d)
    | none => none

/-- Source `validateCustomerUpdateInput`, in source order: provided name and
company must be nonempty after trim and of trimmed length at most 100,
a truthy email must be well-formed, a provided healthScore must lie in
[0, 100], and each provided domain must be well-formed. -/
def validateCustomerUpdateInput (input : CustomerUpdateInput) : Option String :=
  if input.name.isSome && jsTrim (input.name.getD "") == "" then
    some "Customer name cannot be empty"
  else if input.company.isSome && jsTrim (input.company.getD "") == "" then
    some "Company name cannot be empty"
  else if truthyStr input.name && 100 < jsLength (jsTrim (input.name.getD "")) then
    some "Customer name must be less than 100 characters"
  else if truthyStr input.company && 100 < jsLength (jsTrim (input.company.getD "")) then
    some "Company name must be less than 100 characters"
  else if truthyStr input.email && !isValidEmail (input.email.getD "") then
    some "Invalid email format"
  else if input.healthScore.isSome
      && decide (input.healthScore.getD 0 < 0 ∨ 100 < input.healthScore.getD 0) then
    some "Health score must be between 0 and 100"
  else
    match (input.domains.getD []).find? (fun d => !isValidDomain d) with
    | some d => some ("Invalid domain format: " ++ d)
    | none => none

/-! ### CRUD operations -/

/-- Source `createCustomer`: validate, reject a truthy input email that is
strictly equal (`===`, case-sensitive, untrimmed) to a stored email, then
push the new record and bump the id counter.  `now` stands for
`new Date()` at the call. -/
def newCustomerOf (s : ServiceState) (now : ℤ) (input : CustomerCreateInput) :
    Customer :=
  { id := toString s.nextId
    name := jsTrim input.name
    company := jsTrim input.company
    email := input.email.map jsTrim
    subscriptionTier := input.subscriptionTier.getD .basic
    domains := input.domains.getD []
    healthScore := calculateInitialHealthScore input
    createdAt := now
    updatedAt := now }

def createCustomer (s : ServiceState) (now : ℤ) (input : CustomerCreateInput) :
    SResult Customer × ServiceState :=
  match validateCustomerInput input with
  | some msg => (.err .validationError msg, s)
  | none =>
    if truthyStr input.email
        && s.customers.any (fun c => c.email == input.email) then
      (.err .duplicateError "Customer with email already exists", s)
    else
      (.ok (newCustomerOf s now input),
        ⟨s.customers ++ [newCustomerOf s now input], s.nextId + 1⟩)

/-- The merge step of `updateCustomer`: spread the defined patch fields over
the existing record, re-trim the truthy string fields (an explicitly empty
email merges as `""`, whose trim is itself), refresh `updatedAt`. -/
def mergePatch (existing : Customer) (input : CustomerUpdateInput) (now : ℤ) :
    Customer :=
  { existing with
    name := match input.name with
      | none => existing.name
      | some n => if n == "" then n else jsTrim n
    company := match input.company with
      | none => existing.company
      | some n => if n == "" then n else jsTrim n
    email := match input.email with
      | none => existing.email
      | some e => some (if e == "" then e else jsTrim e)
    subscriptionTier := input.subscriptionTier.getD existing.subscriptionTier
    domains := input.domains.getD existing.domains
    healthScore := input.healthScore.getD existing.healthScore
    updatedAt := now }

/-- The record a successful `updateCustomer` stores: the merged record,
with health score recomputed whenever the patch defines `subscriptionTier`
or `domains` (an empty domains array is truthy in JS). -/
def updatedCustomerOf (s : ServiceState) (now : ℤ) (id : String)
    (input : CustomerUpdateInput)
    (h : s.customers.findIdx (fun c => c.id == id) < s.customers.length) :
    Customer :=
  if input.subscriptionTier.isSome || input.domains.isSome then
    { mergePatch (s.customers.get
        ⟨s.customers.findIdx (fun c => c.id == id), h⟩) input now with
      healthScore := calculateHealthScore (mergePatch (s.customers.get
        ⟨s.customers.findIdx (fun c => c.id == id), h⟩) input now) now }
  else
    mergePatch (s.customers.get
      ⟨s.customers.findIdx (fun c => c.id == id), h⟩) input now

/-- Source `updateCustomer`: id must be non-blank, the record must exist
(first index with that id), the patch must validate, a truthy patch email
must not strictly equal another customer's stored email; then the merged
record (with health score recomputed via `calculateHealthScore` whenever the
patch defines `subscriptionTier` or `domains` — an empty domains array is
truthy) replaces the record at the found index. -/
def updateCustomer (s : ServiceState) (now : ℤ) (id : String)
    (input : CustomerUpdateInput) : SResult Customer × ServiceState :=
  if jsTrim id == "" then (.err .validationError "Customer ID is required", s)
  else
    if h : s.customers.findIdx (fun c => c.id == id) < s.customers.length then
      match validateCustomerUpdateInput input with
      | some msg => (.err .validationError msg, s)
      | none =>
        if truthyStr input.email
            && s.customers.any (fun c => c.id != id && c.email == input.email) then
          (.err .duplicateError "Customer with email already exists", s)
        else
          (.ok (updatedCustomerOf s now id input h),
            ⟨s.customers.set (s.customers.findIdx (fun c => c.id == id))
              (updatedCustomerOf s now id input h), s.nextId⟩)
    else (.err .notFound ("Customer with ID " ++ id ++ " not found"), s)

/-- Source `deleteCustomer`: id must be non-blank and present; removes the
record at the first matching index (`splice(idx, 1)`). -/
def deleteCustomer (s : ServiceState) (id : String) :
    SResult Bool × ServiceState :=
  if jsTrim id == "" then (.err .validationError "Customer ID is required", s)
  else
    if s.customers.findIdx (fun c => c.id == id) < s.customers.length then
      (.ok true,
        ⟨s.customers.eraseIdx (s.customers.findIdx (fun c => c.id == id)),
          s.nextId⟩)
    else (.err .notFound ("Customer with ID " ++ id ++ " not found"), s)

/-- Source `getCustomerById` (read-only). -/
def getCustomerById (s : ServiceState) (id : String) : SResult Customer :=
  if jsTrim id == "" then .err .validationError "Customer ID is required"
  else
    match s.customers.find? (fun c => c.id == id) with
    | some c => .ok c
    | none => .err .notFound ("Customer with ID " ++ id ++ " not found")

/-- Source `getCustomersByHealthScore` (read-only); bounds are JS numbers. -/
def getCustomersByHealthScore (s : ServiceState) (minScore maxScore : ℚ) :
    SResult (List Customer) :=
  if minScore < 0 ∨ 100 < maxScore ∨ maxScore < minScore then
    .err .validationError "Invalid health score range. Must be 0-100 with min <= max"
  else
    .ok (s.customers.filter fun c =>
      decide (minScore ≤ c.healthScore) && decide (c.healthScore ≤ maxScore))

/-- Source `getCustomersByTier` (read-only). -/
def getCustomersByTier (s : ServiceState) (tier : Tier) : SResult (List Customer) :=
  .ok (s.customers.filter fun c => c.subscriptionTier == tier)

/-- One customer matches a (lowercased) search needle when the lowercased
name, company, or email contains it. -/
def matchesSearch (needle : String) (c : Customer) : Bool :=
  jsIncludes (jsToLower c.name) needle ||
  jsIncludes (jsToLower c.company) needle ||
  (match c.email with
    | some e => jsIncludes (jsToLower e) needle
    | none => false)

/-- Source `searchCustomers`: a falsy or whitespace-only term short-circuits
to an empty success; otherwise the term is lowercased and trimmed and
matched as a substring against lowercased name/company/email. -/
def searchCustomers (s : ServiceState) (searchTerm : String) :
    SResult (List Customer) :=
  if searchTerm == "" || jsTrim searchTerm == "" then .ok []
  else
    let searchLower := jsTrim (jsToLower searchTerm)
    .ok (s.customers.filter (matchesSearch searchLower))

/-- The aggregate returned by `getCustomerStats`.  `averageHealthScore` is
`none` when the collection is empty: the source computes
`Math.round(sum / 0) = NaN` there, and `none` models that NaN. -/
structure CustomerStats where
  total : ℕ
  basic : ℕ
  premium : ℕ
  enterprise : ℕ
  averageHealthScore : Option ℤ
  healthy : ℕ
  warning : ℕ
  critical : ℕ
deriving DecidableEq, Repr

/-- Source `getCustomerStats` (read-only). -/
def getCustomerStats (s : ServiceState) : SResult CustomerStats :=
  .ok {
    total := s.customers.length
    basic := s.customers.countP (fun c => c.subscriptionTier == .basic)
    premium := s.customers.countP (fun c => c.subscriptionTier == .premium)
    enterprise := s.customers.countP (fun c => c.subscriptionTier == .enterprise)
    averageHealthScore :=
      if s.customers.isEmpty then none
      else some (round ((s.customers.map Customer.healthScore).sum
        / (s.customers.length : ℚ)))
    healthy := s.customers.countP (fun c => decide (71 ≤ c.healthScore))
    warning := s.customers.countP (fun c =>
      decide (31 ≤ c.healthScore) && decide (c.healthScore ≤ 70))
    critical := s.customers.countP (fun c => decide (c.healthScore ≤ 30)) }

/-! ### Listing: filters, sort, pagination -/

/-- The scalar keys `sortBy` may name (`keyof Customer`). -/
inductive SortKey where
  | id
  | name
  | company
  | email
  | subscriptionTier
  | domains
  | healthScore
  | createdAt
  | updatedAt
deriving DecidableEq, Repr

inductive SortOrder where
  | asc
  | desc
deriving DecidableEq, Repr

/-- `CustomerFilterOptions & PaginationOptions`. -/
structure CustomerQueryOptions where
  subscriptionTier : Option Tier := none
  healthScoreMin : Option ℚ := none
  healthScoreMax : Option ℚ := none
  company : Option String := none
  searchTerm : Option String := none
  page : Option ℤ := none
  limit : Option ℤ := none
  sortBy : Option SortKey := none
  sortOrder : Option SortOrder := none
deriving DecidableEq, Repr

/-- `PaginatedResponse<Customer>` (data plus the `pagination` object). -/
structure PaginatedResponse where
  data : List Customer
  page : ℤ
  limit : ℤ
  total : ℕ
  totalPages : ℤ
deriving DecidableEq, Repr

/-- The source comparator body for `sortBy = k` (before the `asc`/`desc`
modifier): string-typed fields compare via `localeCompare` — abstracted here
as a caller-supplied `lcmp` — number-typed fields via subtraction, and
pairs that are not both strings nor both numbers yield 0 (so a missing
email, or the array field `domains`, compares as 0).  Timestamps are ISO
strings compared by `localeCompare` in the source; the model compares the
underlying instants, which for uniformly-formatted ISO strings is the same
order. -/
def fieldCompare (lcmp : String → String → ℚ) (k : SortKey) (a b : Customer) : ℚ :=
  match k with
  | .id => lcmp a.id b.id
  | .name => lcmp a.name b.name
  | .company => lcmp a.company b.company
  | .email =>
    match a.email, b.email with
    | some x, some y => lcmp x y
    | _, _ => 0
  | .subscriptionTier =>
    lcmp (tierToString a.subscriptionTier) (tierToString b.subscriptionTier)
  | .domains => 0
  | .healthScore => a.healthScore - b.healthScore
  | .createdAt => ((a.createdAt - b.createdAt : ℤ) : ℚ)
  | .updatedAt => ((a.updatedAt - b.updatedAt : ℤ) : ℚ)

/-- The filter cascade of `getCustomers`, in source order.  Truthiness:
tier filters when provided (tier strings are never empty), the score bounds
filter on `!== undefined`, and the `company`/`searchTerm` substring filters
only when the provided string is nonempty.  The search filter here uses the
*untrimmed* lowercased term (unlike `searchCustomers`). -/
def applyFilters (o : CustomerQueryOptions) (cs : List Customer) : List Customer :=
  let cs := match o.subscriptionTier with
    | some t => cs.filter (fun c => c.subscriptionTier == t)
    | none => cs
  let cs := match o.healthScoreMin with
    | some m => cs.filter (fun c => decide (m ≤ c.healthScore))
    | none => cs
  let cs := match o.healthScoreMax with
    | some m => cs.filter (fun c => decide (c.healthScore ≤ m))
    | none => cs
  let cs := match o.company with
    | some comp =>
      if comp != "" then
        cs.filter (fun c => jsIncludes (jsToLower c.company) (jsToLower comp))
      else cs
    | none => cs
  match o.searchTerm with
  | some t =>
    if t != "" then cs.filter (matchesSearch (jsToLower t)) else cs
  | none => cs

/-- The sort step of `getCustomers`: a stable sort by the comparator
`fieldCompare * modifier` (modifier −1 for `desc`, else 1), applied only
when `sortBy` is provided. -/
def applySort (lcmp : String → String → ℚ) (sortBy : Option SortKey)
    (sortOrder : Option SortOrder) (cs : List Customer) : List Customer :=
  match sortBy with
  | none => cs
  | some k =>
    let m : ℚ := match sortOrder with
      | some .desc => -1
      | _ => 1
    cs.mergeSort (fun a b => decide (fieldCompare lcmp k a b * m ≤ 0))

/-- JS `Array.prototype.slice(start, stop)`: negative indices count from the
end, both are clamped to `[0, length]`. -/
def jsSlice {α : Type} (l : List α) (start stop : ℤ) : List α :=
  let len : ℤ := l.length
  let s := if start < 0 then max (len + start) 0 else min start len
  let e := if stop < 0 then max (len + stop) 0 else min stop len
  (l.take e.toNat).drop s.toNat

/-- `options.page || 1`. -/
def effPage (o : CustomerQueryOptions) : ℤ :=
  match o.page with
  | some p => if p = 0 then 1 else p
  | none => 1

/-- `options.limit || 10`. -/
def effLimit (o : CustomerQueryOptions) : ℤ :=
  match o.limit with
  | some v => if v = 0 then 10 else v
  | none => 10

/-- Source `getCustomers` (read-only): filter, then sort, then slice
`[(page-1)*limit, (page-1)*limit + limit)`, reporting the filtered count as
`total` and `Math.ceil(total / limit)` as `totalPages`. -/
def getCustomers (lcmp : String → String → ℚ) (s : ServiceState)
    (o : CustomerQueryOptions) : SResult PaginatedResponse :=
  let filtered := applyFilters o s.customers
  let sorted := applySort lcmp o.sortBy o.sortOrder filtered
  let page := effPage o
  let limit := effLimit o
  let startIndex := (page - 1) * limit
  let endIndex := startIndex + limit
  .ok {
    data := jsSlice sorted startIndex endIndex
    page := page
    limit := limit
    total := filtered.length
    totalPages := Int.ceil ((filtered.length : ℚ) / (limit : ℚ)) }

/-- The `data` slice of a (always-successful) `getCustomers` response. -/
def pagData : SResult PaginatedResponse → List Customer
  | .ok pr => pr.data
  | .err _ _ => []

/-! ### Shared concrete fixtures for witnesses and counterexamples -/

/-- The spec's scenario-1 create input. -/
def janeIn : CustomerCreateInput :=
  { name := "Jane Doe", company := "Acme", email := some "jane@acme.com",
    subscriptionTier := some .premium, domains := some ["acme.com"] }

/-- The customer that `createCustomer ⟨[], 9⟩ 0 janeIn` stores. -/
def janeOut : Customer :=
  { id := "9", name := "Jane Doe", company := "Acme",
    email := some "jane@acme.com", subscriptionTier := .premium,
    domains := ["acme.com"], healthScore := 80, createdAt := 0, updatedAt := 0 }

/-- A syntactically well-formed email of length 262 (`250 × 'a'` then
`"@example.com"`), exceeding the spec's 254-character bound. -/
def longEmail : String := ⟨List.replicate 250 'a'⟩ ++ "@example.com"

/-- Eleven syntactically valid domains, exceeding the spec's 10-entry cap. -/
def elevenDomains : List String :=
  ["da.com", "db.com", "dc.com", "dd.com", "de.com", "df.com", "dg.com",
   "dh.com", "di.com", "dj.com", "dk.com"]

/-- A create input that violates the spec's email-length and domain-count
bounds while satisfying every check the service performs. -/
def overLimitIn : CustomerCreateInput :=
  { name := "Bob", company := "Blue", email := some longEmail,
    domains := some elevenDomains }

/-! ### Theorems -/

/- Restore kernel-friendly reducibility of rational arithmetic so that
`decide` can evaluate the service operations on concrete fixtures. -/
set_option allowUnsafeReducibility true in
attribute [semireducible] Rat.add Rat.mul Rat.sub Rat.inv

/-- The domain bonus is `min(5·|D|, 20)` with `|D|` the number of supplied
domains (0 when the field is absent). -/
theorem domainsBonus_eq (o : Option (List String)) :
    domainsBonus o = min ((5 : ℚ) * (o.getD []).length) 20 := by
  cases o <;> norm_num [domainsBonus, jsMin_eq_min]

/-- Success characterisation of `createCustomer`: it returns `ok` exactly
when validation passes and the truthy-email duplicate probe misses, and
then appends `newCustomerOf` and bumps the counter. -/
theorem createCustomer_ok_iff (s : ServiceState) (now : ℤ)
    (input : CustomerCreateInput) (u : Customer) (s' : ServiceState) :
    createCustomer s now input = (.ok u, s') ↔
      validateCustomerInput input = none ∧
      (truthyStr input.email
        && s.customers.any (fun c => c.email == input.email)) = false ∧
      u = newCustomerOf s now input ∧
      s' = ⟨s.customers ++ [newCustomerOf s now input], s.nextId + 1⟩ := by
  constructor
  · intro h
    cases hv : validateCustomerInput input with
    | some msg => simp [createCustomer, hv] at h
    | none =>
      simp only [createCustomer, hv] at h
      split at h
      · simp at h
      · simp only [Prod.mk.injEq, SResult.ok.injEq] at h
        next hdup =>
          exact ⟨rfl, by simpa using hdup, h.1.symm, h.2.symm⟩
  · rintro ⟨hv, hdup, rfl, rfl⟩
    simp [createCustomer, hv, hdup]

/-- Clamping is the identity on scores already inside `[0, 100]`. -/
theorem clampScore_eq_self (q : ℚ) (h0 : 0 ≤ q) (h1 : q ≤ 100) :
    clampScore q = q := by
  rw [clampScore, jsMax, if_pos h0, jsMin, if_pos h1]

theorem domainsBonus_nonneg (o : Option (List String)) : 0 ≤ domainsBonus o := by
  rcases o with - | ds
  · simp [domainsBonus]
  · rw [domainsBonus, jsMin_eq_min, le_min_iff]
    constructor <;> positivity

theorem domainsBonus_le (o : Option (List String)) : domainsBonus o ≤ 20 := by
  rcases o with - | ds
  · norm_num [domainsBonus]
  · rw [domainsBonus, jsMin_eq_min]
    exact min_le_right _ _

theorem emailBonus_nonneg (e : Option String) : 0 ≤ emailBonus e := by
  rw [emailBonus]; split <;> norm_num

theorem emailBonus_le (e : Option String) : emailBonus e ≤ 10 := by
  rw [emailBonus]; split <;> norm_num

/-- The pre-clamp initial score always lies in `[50, 50 + tier + 30]`. -/
theorem rawInitialScore_bounds (input : CustomerCreateInput) :
    50 ≤ rawInitialScore input ∧
      rawInitialScore input ≤ 80 + tierBonusOpt input.subscriptionTier := by
  have hd0 := domainsBonus_nonneg input.domains
  have hd1 := domainsBonus_le input.domains
  have he0 := emailBonus_nonneg input.email
  have he1 := emailBonus_le input.email
  have ht0 : 0 ≤ tierBonusOpt input.subscriptionTier := by
    rcases input.subscriptionTier with - | t
    · norm_num [tierBonusOpt]
    · cases t <;> norm_num [tierBonusOpt]
  constructor <;> · rw [rawInitialScore]; linarith

/-- C2: a successful `createCustomer` stores
`healthScore = clamp(50 + tierBonus(T) + min(5·|D|, 20) + (E ? 10 : 0), 0, 100)`
with tier bonus enterprise +30 / premium +15 / basic +5 / absent +0, `|D|`
the number of supplied domains, and the email bonus keyed on JS truthiness
of the input email.  (The spec's `round` is vacuous: every summand is an
integer.) -/
theorem createCustomer_healthScore (s : ServiceState) (now : ℤ)
    (input : CustomerCreateInput) (u : Customer) (s' : ServiceState)
    (h : createCustomer s now input = (.ok u, s')) :
    u.healthScore =
      min (max (50 + tierBonusOpt input.subscriptionTier
        + min ((5 : ℚ) * (input.domains.getD []).length) 20
        + (if truthyStr input.email then 10 else 0)) 0) 100 := by
  obtain ⟨-, -, rfl, -⟩ := (createCustomer_ok_iff s now input u s').mp h
  simp [newCustomerOf, calculateInitialHealthScore, clampScore, rawInitialScore,
    domainsBonus_eq, emailBonus, jsMin_eq_min, jsMax_eq_max]

/-- Witness for C2: the spec's scenario 1 (premium tier, one domain, an
email) yields health score 80. -/
theorem createCustomer_healthScore_witness : janeOut.healthScore = 80 := by
  have h : createCustomer ⟨[], 9⟩ 0 janeIn = (.ok janeOut, ⟨[janeOut], 10⟩) := by
    decide
  have h2 := createCustomer_healthScore _ _ _ _ _ h
  rw [h2]
  decide

/-- C10: creating without `subscriptionTier` stores tier `basic` yet scores
with no tier bonus: the otherwise-identical input with an explicit `basic`
tier has a pre-clamp score exactly 5 higher (and, since these raw scores
never reach the clamp bounds, a stored health score exactly 5 higher),
even though both stored customers carry tier `basic`. -/
theorem createCustomer_absentTier (s : ServiceState) (now : ℤ)
    (input : CustomerCreateInput) (u : Customer) (s' : ServiceState)
    (hnone : input.subscriptionTier = none)
    (h : createCustomer s now input = (.ok u, s')) :
    ∃ u' s'',
      createCustomer s now { input with subscriptionTier := some .basic } =
        (.ok u', s'') ∧
      u.subscriptionTier = .basic ∧ u'.subscriptionTier = .basic ∧
      rawInitialScore { input with subscriptionTier := some .basic } =
        rawInitialScore input + 5 ∧
      u'.healthScore = u.healthScore + 5 := by
  obtain ⟨hv, hdup, rfl, -⟩ := (createCustomer_ok_iff s now input u s').mp h
  have hplus : rawInitialScore { input with subscriptionTier := some .basic } =
      rawInitialScore input + 5 := by
    show 50 + tierBonusOpt (some .basic) + domainsBonus input.domains
        + emailBonus input.email = rawInitialScore input + 5
    rw [rawInitialScore, hnone]
    simp only [tierBonusOpt]
    ring
  refine ⟨newCustomerOf s now { input with subscriptionTier := some .basic }, _,
    (createCustomer_ok_iff ..).mpr ⟨hv, hdup, rfl, rfl⟩, ?_, rfl, hplus, ?_⟩
  · simp [newCustomerOf, hnone]
  · obtain ⟨hlo, hhi⟩ := rawInitialScore_bounds input
    rw [hnone] at hhi
    norm_num [tierBonusOpt] at hhi
    show clampScore (rawInitialScore { input with subscriptionTier := some .basic })
      = clampScore (rawInitialScore input) + 5
    rw [hplus, clampScore_eq_self _ (by linarith) (by linarith),
      clampScore_eq_self _ (by linarith) (by linarith)]

/-- A create input with no email, tier, or domains. -/
def bobIn : CustomerCreateInput := { name := "Bob", company := "Blue" }

/-- The customer `createCustomer ⟨[], 9⟩ 0 bobIn` stores (score 50). -/
def bobOut : Customer :=
  { id := "9", name := "Bob", company := "Blue", email := none,
    subscriptionTier := .basic, domains := [], healthScore := 50,
    createdAt := 0, updatedAt := 0 }

/-- Witness for C10 at a concrete input: tier-less create stores tier
`basic` with score 50; the explicit-`basic` twin scores 55. -/
theorem createCustomer_absentTier_witness :
    ∃ u' s'',
      createCustomer ⟨[], 9⟩ 0 { bobIn with subscriptionTier := some .basic } =
        (.ok u', s'') ∧
      bobOut.subscriptionTier = .basic ∧ u'.subscriptionTier = .basic ∧
      rawInitialScore { bobIn with subscriptionTier := some .basic } =
        rawInitialScore bobIn + 5 ∧
      u'.healthScore = bobOut.healthScore + 5 :=
  createCustomer_absentTier ⟨[], 9⟩ 0 bobIn bobOut ⟨[bobOut], 10⟩ rfl (by decide)

/-- C8: `byHealthScoreRange(min, max)` fails `Validation` exactly when
`min > max` or either bound lies outside `[0, 100]` (the source's
three-way test `min < 0 || max > 100 || min > max` is equivalent to that
five-way condition), and otherwise returns exactly the customers whose
`healthScore` lies in the inclusive interval `[min, max]`. -/
theorem getCustomersByHealthScore_spec (s : ServiceState) (minScore maxScore : ℚ) :
    ((getCustomersByHealthScore s minScore maxScore).code? = some .validationError ↔
      (maxScore < minScore ∨ minScore < 0 ∨ 100 < minScore
        ∨ maxScore < 0 ∨ 100 < maxScore)) ∧
    (¬(maxScore < minScore ∨ minScore < 0 ∨ 100 < minScore
        ∨ maxScore < 0 ∨ 100 < maxScore) →
      getCustomersByHealthScore s minScore maxScore =
        .ok (s.customers.filter fun c =>
          decide (minScore ≤ c.healthScore) && decide (c.healthScore ≤ maxScore))) := by
  have hiff : (minScore < 0 ∨ 100 < maxScore ∨ maxScore < minScore) ↔
      (maxScore < minScore ∨ minScore < 0 ∨ 100 < minScore
        ∨ maxScore < 0 ∨ 100 < maxScore) := by
    constructor
    · rintro (h | h | h)
      · exact Or.inr (Or.inl h)
      · exact Or.inr (Or.inr (Or.inr (Or.inr h)))
      · exact Or.inl h
    · rintro (h | h | h | h | h)
      · exact Or.inr (Or.inr h)
      · exact Or.inl h
      · rcases le_or_lt maxScore 100 with h2 | h2
        · exact Or.inr (Or.inr (by linarith))
        · exact Or.inr (Or.inl h2)
      · rcases le_or_lt 0 minScore with h2 | h2
        · exact Or.inr (Or.inr (by linarith))
        · exact Or.inl h2
      · exact Or.inr (Or.inl h)
  rw [getCustomersByHealthScore]
  split
  next hc =>
    exact ⟨iff_of_true rfl (hiff.mp hc), fun hn => absurd (hiff.mp hc) hn⟩
  next hc =>
    exact ⟨iff_of_false (by simp [SResult.code?]) (fun hr => hc (hiff.mpr hr)),
      fun _ => rfl⟩

/-- Witness for C8: the full range `[0, 100]` on a one-customer state
returns that customer. -/
theorem getCustomersByHealthScore_spec_witness :
    getCustomersByHealthScore ⟨[janeOut], 10⟩ 0 100 =
      .ok (([janeOut] : List Customer).filter fun c =>
        decide ((0 : ℚ) ≤ c.healthScore) && decide (c.healthScore ≤ (100 : ℚ))) :=
  (getCustomersByHealthScore_spec ⟨[janeOut], 10⟩ 0 100).2 (by decide)

/-- Case-insensitive containment as the spec phrases it: the lowercased
haystack contains the lowercased needle. -/
def ciContains (hay needle : String) : Bool :=
  jsIncludes (jsToLower hay) (jsToLower needle)

/-- C9 counterexample: on a state holding only the scenario-1 customer,
searching for `" Jane"` (leading space) returns that customer even though
none of name, company, or email contains `" Jane"` case-insensitively —
the source matches against the *trimmed* term, so the claim as stated
(match against the term itself) fails. -/
theorem searchCustomers_counterexample :
    searchCustomers ⟨[janeOut], 10⟩ " Jane" = .ok [janeOut] ∧
    (ciContains janeOut.name " Jane" || ciContains janeOut.company " Jane" ||
      (match janeOut.email with
        | some e => ciContains e " Jane"
        | none => false)) = false := by decide

/-- C9 (amended): an empty or whitespace-only term yields an empty success
(not an error, not the full collection); any other term returns exactly the
customers whose lowercased name, company, or email contains the
whitespace-trimmed lowercased term as a substring (case-insensitive match
against the trimmed term). -/
theorem searchCustomers_spec (s : ServiceState) (term : String) :
    (jsTrim term = "" → searchCustomers s term = .ok []) ∧
    (jsTrim term ≠ "" → searchCustomers s term =
      .ok (s.customers.filter fun c =>
        jsIncludes (jsToLower c.name) (jsTrim (jsToLower term)) ||
        jsIncludes (jsToLower c.company) (jsTrim (jsToLower term)) ||
          (match c.email with
            | some e => jsIncludes (jsToLower e) (jsTrim (jsToLower term))
            | none => false))) := by
  constructor
  · intro h
    simp [searchCustomers, h]
  · intro hn
    have ht : (term == "") = false := by
      rcases eq_or_ne term "" with rfl | hne
      · exact absurd rfl hn
      · simpa using hne
    have ht2 : (jsTrim term == "") = false := by simpa using hn
    rw [searchCustomers, ht, ht2]
    rfl

/-- Witness for C9 at concrete terms: a whitespace term finds nothing; the
term `"acme"` finds the scenario-1 customer by company substring. -/
theorem searchCustomers_spec_witness :
    searchCustomers ⟨[janeOut], 10⟩ "  " = .ok [] ∧
    searchCustomers ⟨[janeOut], 10⟩ "acme" =
      .ok (([janeOut] : List Customer).filter fun c =>
        jsIncludes (jsToLower c.name) (jsTrim (jsToLower "acme")) ||
        jsIncludes (jsToLower c.company) (jsTrim (jsToLower "acme")) ||
          (match c.email with
            | some e => jsIncludes (jsToLower e) (jsTrim (jsToLower "acme"))
            | none => false)) :=
  ⟨(searchCustomers_spec ⟨[janeOut], 10⟩ "  ").1 (by decide),
   (searchCustomers_spec ⟨[janeOut], 10⟩ "acme").2 (by decide)⟩

/-- C5: every repository operation is total and returns a tagged
success/failure value (`SResult`) by construction — thrown service errors
are modelled as the caught `{success:false, code}` results of `handleError`
— and whenever a mutating operation (create, update, delete) fails, the
customer collection and the id counter are exactly as before the call.
The read-only operations return bare `SResult`s and cannot touch state. -/
theorem failure_no_mutation (s : ServiceState) (now : ℤ)
    (input : CustomerCreateInput) (id : String) (patch : CustomerUpdateInput)
    (did : String) :
    ((createCustomer s now input).1.isOk = false →
      (createCustomer s now input).2 = s) ∧
    ((updateCustomer s now id patch).1.isOk = false →
      (updateCustomer s now id patch).2 = s) ∧
    ((deleteCustomer s did).1.isOk = false → (deleteCustomer s did).2 = s) := by
  refine ⟨?_, ?_, ?_⟩
  · rw [createCustomer]
    split
    · intro _; rfl
    · split
      · intro _; rfl
      · intro hk; simp [SResult.isOk] at hk
  · rw [updateCustomer]
    split
    · intro _; rfl
    · split
      · split
        · intro _; rfl
        · split
          · intro _; rfl
          · intro hk; simp [SResult.isOk] at hk
      · intro _; rfl
  · rw [deleteCustomer]
    split
    · intro _; rfl
    · split
      · intro hk; simp [SResult.isOk] at hk
      · intro _; rfl

/-- Witness for C5: a failing create (empty name), a failing update
(unknown id), and a failing delete (unknown id) each leave the state
untouched. -/
theorem failure_no_mutation_witness :
    (createCustomer ⟨[], 9⟩ 0 { name := "", company := "" }).2 = ⟨[], 9⟩ ∧
    (updateCustomer ⟨[], 9⟩ 0 "zz" {}).2 = ⟨[], 9⟩ ∧
    (deleteCustomer ⟨[], 9⟩ "zz").2 = ⟨[], 9⟩ := by
  obtain ⟨h1, h2, h3⟩ :=
    failure_no_mutation ⟨[], 9⟩ 0 { name := "", company := "" } "zz" {} "zz"
  exact ⟨h1 (by decide), h2 (by decide), h3 (by decide)⟩

/-- C1 counterexample: with `"jane@acme.com"` stored, creating a customer
whose email is `"JANE@acme.com"` — equal case-insensitively, different
case-sensitively — succeeds instead of failing with `Duplicate`, leaving
two customers whose non-empty emails coincide case-insensitively; the
source's duplicate probes use strict `===` equality on the raw input. -/
theorem duplicateEmail_counterexample :
    (createCustomer ⟨[janeOut], 10⟩ 0
      { name := "Bob", company := "Blue", email := some "JANE@acme.com" }).1.isOk
      = true ∧
    jsToLower "JANE@acme.com" = jsToLower "jane@acme.com" ∧
    janeOut.email = some "jane@acme.com" := by decide

/-- C1 (amended): the duplicate-email rejections are by *strict,
case-sensitive* equality of the raw patch/input email against stored
emails.  For a create input passing validation whose truthy email exactly
equals some stored customer's email, `createCustomer` fails with
`Duplicate` and leaves the state unchanged; for an update whose id resolves
and whose patch passes validation, a truthy patch email exactly equal to a
*different* customer's stored email makes `updateCustomer` fail with
`Duplicate`, state unchanged.  No case-insensitive uniqueness invariant is
enforced across operations. -/
theorem duplicateEmail_exact (s : ServiceState) (now : ℤ) :
    (∀ (input : CustomerCreateInput) (e : String),
      validateCustomerInput input = none → input.email = some e → e ≠ "" →
      (∃ c ∈ s.customers, c.email = some e) →
      createCustomer s now input =
        (.err .duplicateError "Customer with email already exists", s)) ∧
    (∀ (id : String) (patch : CustomerUpdateInput) (e : String),
      jsTrim id ≠ "" →
      s.customers.findIdx (fun c => c.id == id) < s.customers.length →
      validateCustomerUpdateInput patch = none → patch.email = some e → e ≠ "" →
      (∃ c ∈ s.customers, c.id ≠ id ∧ c.email = some e) →
      updateCustomer s now id patch =
        (.err .duplicateError "Customer with email already exists", s)) := by
  constructor
  · rintro input e hv he hne ⟨c, hc, hce⟩
    have hdup : (truthyStr input.email
        && s.customers.any fun c => c.email == input.email) = true := by
      rw [he, Bool.and_eq_true]
      refine ⟨by simpa [truthyStr] using hne, ?_⟩
      exact List.any_eq_true.mpr ⟨c, hc, by simp [hce]⟩
    rw [createCustomer, hv]
    rw [if_pos hdup]
  · rintro id patch e hid hfound hv he hne ⟨c, hc, hcid, hce⟩
    have hdup : (truthyStr patch.email
        && s.customers.any fun c => c.id != id && c.email == patch.email) = true := by
      rw [he, Bool.and_eq_true]
      refine ⟨by simpa [truthyStr] using hne, ?_⟩
      exact List.any_eq_true.mpr ⟨c, hc, by simp [hcid, hce]⟩
    rw [updateCustomer, if_neg (by simpa using hid), dif_pos hfound, hv,
      if_pos hdup]

/-- A second stored customer, distinct id and email from `janeOut`. -/
def carlOut : Customer :=
  { id := "10", name := "Carl", company := "Coral", email := some "carl@coral.io",
    subscriptionTier := .basic, domains := [], healthScore := 65,
    createdAt := 0, updatedAt := 0 }

/-- Witness for C1 (amended) at concrete inputs: an exact-equal create
email and an exact-equal update email both fail with `Duplicate` and leave
the two-customer state unchanged. -/
theorem duplicateEmail_exact_witness :
    createCustomer ⟨[janeOut, carlOut], 11⟩ 0
        { name := "Bob", company := "Blue", email := some "jane@acme.com" } =
      (.err .duplicateError "Customer with email already exists",
        ⟨[janeOut, carlOut], 11⟩) ∧
    updateCustomer ⟨[janeOut, carlOut], 11⟩ 0 "10"
        { email := some "jane@acme.com" } =
      (.err .duplicateError "Customer with email already exists",
        ⟨[janeOut, carlOut], 11⟩) := by
  obtain ⟨h1, h2⟩ := duplicateEmail_exact ⟨[janeOut, carlOut], 11⟩ 0
  refine ⟨h1 { name := "Bob", company := "Blue", email := some "jane@acme.com" }
      "jane@acme.com" (by decide) rfl (by decide)
      ⟨janeOut, by decide, rfl⟩, ?_⟩
  exact h2 "10" { email := some "jane@acme.com" } "jane@acme.com" (by decide)
    (by decide) (by decide) rfl (by decide) ⟨janeOut, by decide, by decide, rfl⟩

/-- `validateCustomerInput` passes exactly when: trimmed name and company
are nonempty and of length at most 100, a truthy email is well-formed, and
every supplied domain is well-formed. -/
theorem validateCustomerInput_none_iff (input : CustomerCreateInput) :
    validateCustomerInput input = none ↔
      (jsTrim input.name ≠ "" ∧ jsLength (jsTrim input.name) ≤ 100 ∧
       jsTrim input.company ≠ "" ∧ jsLength (jsTrim input.company) ≤ 100 ∧
       (truthyStr input.email = true → isValidEmail (input.email.getD "") = true) ∧
       ∀ d ∈ input.domains.getD [], isValidDomain d = true) := by
  rw [validateCustomerInput]
  split_ifs with h1 h2 h3 h4 h5
  · exact iff_of_false (by simp) (fun hc => hc.1 (by simpa using h1))
  · exact iff_of_false (by simp) (fun hc => hc.2.2.1 (by simpa using h2))
  · exact iff_of_false (by simp) (fun hc => absurd hc.2.1 (by omega))
  · exact iff_of_false (by simp) (fun hc => absurd hc.2.2.2.1 (by omega))
  · refine iff_of_false (by simp) (fun hc => ?_)
    rw [Bool.and_eq_true] at h5
    have hok := hc.2.2.2.2.1 h5.1
    simp [hok] at h5
  · cases hf : (input.domains.getD []).find? (fun d => !isValidDomain d) with
    | some d =>
      refine iff_of_false (by simp) (fun hc => ?_)
      have hd := List.find?_some hf
      have hm := List.mem_of_find?_eq_some hf
      have := hc.2.2.2.2.2 d hm
      simp [this] at hd
    | none =>
      refine iff_of_true rfl
        ⟨by simpa using h1, by omega, by simpa using h2, by omega, ?_, ?_⟩
      · intro ht
        rcases Bool.eq_false_or_eq_true (isValidEmail (input.email.getD ""))
          with hT | hF
        · exact hT
        · exact absurd (by rw [ht, hF]; rfl) h5
      · intro d hd
        have := List.find?_eq_none.mp hf d hd
        simpa using this

set_option maxRecDepth 8000 in
/-- C4 counterexample: `createCustomer` succeeds on an input whose email is
262 characters long and which carries 11 domains — the service layer checks
neither the 254-character email bound nor the 10-domain cap (those checks
exist only in the HTTP route handler). -/
theorem createCustomer_validation_counterexample :
    (createCustomer ⟨[], 9⟩ 0 overLimitIn).1.isOk = true ∧
    254 < jsLength longEmail ∧ 10 < elevenDomains.length := by decide

/-- C4 (amended): `createCustomer` fails with `Validation` exactly when the
input violates the checks the service actually performs: name and company
required and non-empty after trimming and at most 100 characters (trimmed),
a non-empty email must be well-formed, and every supplied domain must be
syntactically valid (each at most 253 characters, via `isValidDomain`).
No bound on email length or on the total number of domains is enforced. -/
theorem createCustomer_validation (s : ServiceState) (now : ℤ)
    (input : CustomerCreateInput) :
    (createCustomer s now input).1.code? = some .validationError ↔
      ¬(jsTrim input.name ≠ "" ∧ jsLength (jsTrim input.name) ≤ 100 ∧
        jsTrim input.company ≠ "" ∧ jsLength (jsTrim input.company) ≤ 100 ∧
        (truthyStr input.email = true → isValidEmail (input.email.getD "") = true) ∧
        ∀ d ∈ input.domains.getD [], isValidDomain d = true) := by
  rw [← validateCustomerInput_none_iff]
  cases hv : validateCustomerInput input with
  | some msg =>
    have hl : (createCustomer s now input).1.code? = some .validationError := by
      simp only [createCustomer, hv, SResult.code?]
    exact iff_of_true hl (by simp [hv])
  | none =>
    have hl : ¬(createCustomer s now input).1.code? = some .validationError := by
      simp only [createCustomer, hv]
      split
      · simp [SResult.code?]
      · simp [SResult.code?]
    exact iff_of_false hl (fun hr => hr rfl)

/-- Witness for C4 at a concrete input: an empty name yields a
`Validation` failure. -/
theorem createCustomer_validation_witness :
    (createCustomer ⟨[], 9⟩ 0
      { name := "", company := "Blue" }).1.code? = some .validationError :=
  (createCustomer_validation ⟨[], 9⟩ 0 { name := "", company := "Blue" }).mpr
    (by decide)

/-- Every customer has exactly one of the three tiers, so the per-tier
counts sum to the collection size. -/
theorem countP_tier_sum (l : List Customer) :
    l.countP (fun c => c.subscriptionTier == .basic)
      + l.countP (fun c => c.subscriptionTier == .premium)
      + l.countP (fun c => c.subscriptionTier == .enterprise) = l.length := by
  induction l with
  | nil => rfl
  | cons x xs ih =>
    simp only [List.countP_cons, List.length_cons]
    cases hx : x.subscriptionTier <;> simp [hx] <;> omega

/-- When every stored health score is an integer, the three health bands
(`≥71`, `31..70`, `≤30`) partition the collection, so their counts sum to
the collection size.  (A fractional score in `(30,31)` or `(70,71)` would
fall in no band.) -/
theorem countP_bands (l : List Customer)
    (hint : ∀ c ∈ l, ∃ n : ℤ, c.healthScore = (n : ℚ)) :
    l.countP (fun c => decide (71 ≤ c.healthScore))
      + l.countP (fun c =>
          decide (31 ≤ c.healthScore) && decide (c.healthScore ≤ 70))
      + l.countP (fun c => decide (c.healthScore ≤ 30)) = l.length := by
  induction l with
  | nil => rfl
  | cons x xs ih =>
    obtain ⟨n, hn⟩ := hint x (List.mem_cons_self x xs)
    have ih' := ih (fun c hc => hint c (List.mem_cons_of_mem _ hc))
    have k1 : ((71 : ℚ) ≤ (n : ℚ)) ↔ (71 ≤ n) := by norm_cast
    have k2 : ((31 : ℚ) ≤ (n : ℚ)) ↔ (31 ≤ n) := by norm_cast
    have k3 : ((n : ℚ) ≤ 70) ↔ (n ≤ 70) := by norm_cast
    have k4 : ((n : ℚ) ≤ 30) ↔ (n ≤ 30) := by norm_cast
    simp only [List.countP_cons, List.length_cons, hn, Bool.and_eq_true,
      decide_eq_true_eq, k1, k2, k3, k4]
    by_cases h1 : 71 ≤ n <;> by_cases h2 : 31 ≤ n <;> by_cases h3 : n ≤ 70 <;>
      simp [h1, h2, h3, show (n ≤ 30) ↔ ¬(31 ≤ n) by omega] <;> omega

/-- C6 (amended): `stats()` reports `total` = record count, tier counts
summing to `total`, health-band counts summing to `total` whenever every
stored health score is an integer (a reachable fractional score such as
70.5 falls in no band), and an average health score equal to the rounded
mean when the collection is non-empty and to `NaN` (modelled `none`) — not
0 — when it is empty. -/
theorem getCustomerStats_spec (s : ServiceState) :
    ∃ st, getCustomerStats s = .ok st ∧
      st.total = s.customers.length ∧
      st.basic + st.premium + st.enterprise = st.total ∧
      (s.customers = [] → st.averageHealthScore = none) ∧
      (s.customers ≠ [] → st.averageHealthScore =
        some (round ((s.customers.map Customer.healthScore).sum
          / (s.customers.length : ℚ)))) ∧
      ((∀ c ∈ s.customers, ∃ n : ℤ, c.healthScore = (n : ℚ)) →
        st.healthy + st.warning + st.critical = st.total) := by
  refine ⟨_, rfl, rfl, countP_tier_sum s.customers, ?_, ?_,
    fun hint => countP_bands s.customers hint⟩
  · intro he
    simp [getCustomerStats, he]
  · intro hne
    have hne' : s.customers.isEmpty = false := by
      simpa [List.isEmpty_iff] using hne
    simp [getCustomerStats, hne']

/-- Witness for C6 at a concrete one-customer state: average 80 and the
bands sum to the total. -/
theorem getCustomerStats_spec_witness :
    ∃ st, getCustomerStats ⟨[janeOut], 10⟩ = .ok st ∧
      st.averageHealthScore = some 80 ∧
      st.healthy + st.warning + st.critical = st.total := by
  obtain ⟨st, hok, h1, h2, h3, h4, h5⟩ := getCustomerStats_spec ⟨[janeOut], 10⟩
  refine ⟨st, hok, ?_, ?_⟩
  · rw [h4 (by decide)]
    norm_num [janeOut]
  · refine h5 ?_
    intro c hc
    rw [List.mem_singleton] at hc
    subst hc
    exact ⟨80, by norm_num [janeOut]⟩

/-- The stats record of a state (`getCustomerStats` never fails). -/
def statsData (s : ServiceState) : CustomerStats :=
  match getCustomerStats s with
  | .ok st => st
  | .err _ _ => ⟨0, 0, 0, 0, none, 0, 0, 0⟩

/-- The state after patching the scenario-1 customer's health score to the
(valid) fractional value 70.5 — no tier/domains in the patch, so no
recompute happens and 70.5 is stored as-is. -/
def halfScoreState : ServiceState :=
  (updateCustomer ⟨[janeOut], 10⟩ 0 "9"
    { healthScore := some ((141 : ℚ) / 2) }).2

/-- C6 counterexample: after a legal update stores the fractional health
score 70.5, the band counts sum to 0 while `total` is 1; and on the empty
collection `averageHealthScore` is `NaN` (modelled `none`), not 0. -/
theorem getCustomerStats_counterexample :
    (updateCustomer ⟨[janeOut], 10⟩ 0 "9"
      { healthScore := some ((141 : ℚ) / 2) }).1.isOk = true ∧
    (statsData halfScoreState).total = 1 ∧
    (statsData halfScoreState).healthy + (statsData halfScoreState).warning
      + (statsData halfScoreState).critical = 0 ∧
    (statsData ⟨[], 9⟩).averageHealthScore = none := by decide

/-- A successful `updateCustomer` returns exactly the merged-and-possibly-
recomputed record `updatedCustomerOf`. -/
theorem updateCustomer_ok (s : ServiceState) (now : ℤ) (id : String)
    (patch : CustomerUpdateInput) (u : Customer) (s' : ServiceState)
    (h : updateCustomer s now id patch = (.ok u, s')) :
    ∃ hlt : s.customers.findIdx (fun c => c.id == id) < s.customers.length,
      u = updatedCustomerOf s now id patch hlt := by
  rw [updateCustomer] at h
  split at h
  · simp at h
  · split at h
    · split at h
      · simp at h
      · split at h
        · simp at h
        · simp only [Prod.mk.injEq, SResult.ok.injEq] at h
          exact ⟨‹_›, h.1.symm⟩
    · simp at h

/-- C3: whenever the patch contains `subscriptionTier` or `domains`, a
successful `updateCustomer` stores a health score recomputed *after* the
merge from the merged tier, domains, email and the account age (bonus
`min(daysSinceCreatedAt/10, 15)` with days = `(now − createdAt)/86400000`),
as `clamp(round(·), 0, 100)`.  The formula reads only the merged record, so
any explicit `healthScore` in the same patch is overridden. -/
theorem updateCustomer_recompute (s : ServiceState) (now : ℤ) (id : String)
    (patch : CustomerUpdateInput) (u : Customer) (s' : ServiceState)
    (htrig : patch.subscriptionTier.isSome = true ∨ patch.domains.isSome = true)
    (h : updateCustomer s now id patch = (.ok u, s')) :
    u.healthScore = clampScore ((round ((50 : ℚ)
      + tierBonus u.subscriptionTier
      + min ((5 : ℚ) * u.domains.length) 20 + emailBonus u.email
      + min ((((now - u.createdAt : ℤ) : ℚ) / 86400000) / 10) 15) : ℤ) : ℚ) := by
  obtain ⟨hlt, rfl⟩ := updateCustomer_ok s now id patch u s' h
  have htrig' : (patch.subscriptionTier.isSome || patch.domains.isSome) = true := by
    rcases htrig with ht | ht <;> simp [ht]
  rw [updatedCustomerOf, if_pos htrig']
  simp [calculateHealthScore, jsMin_eq_min, msPerDay]

/-- The record stored by updating the scenario-1 customer to tier
`enterprise` ten days after its creation: recomputed score
`round(50 + 30 + 5 + 10 + min(10/10, 15)) = 96`. -/
def janeEnt : Customer :=
  { id := "9", name := "Jane Doe", company := "Acme",
    email := some "jane@acme.com", subscriptionTier := .enterprise,
    domains := ["acme.com"], healthScore := 96, createdAt := 0,
    updatedAt := 864000000 }

/-- Witness for C3: the spec's scenario 4 (tier patch to `enterprise`)
recomputes the stored score from the merged record and the account age. -/
theorem updateCustomer_recompute_witness :
    janeEnt.healthScore = clampScore ((round ((50 : ℚ)
      + tierBonus janeEnt.subscriptionTier
      + min ((5 : ℚ) * janeEnt.domains.length) 20 + emailBonus janeEnt.email
      + min (((((864000000 : ℤ) - janeEnt.createdAt : ℤ) : ℚ) / 86400000) / 10)
          15) : ℤ) : ℚ) :=
  updateCustomer_recompute ⟨[janeOut], 10⟩ 864000000 "9"
    { subscriptionTier := some .enterprise } janeEnt ⟨[janeEnt], 10⟩
    (Or.inl rfl) (by decide)

/-! ### Pagination arithmetic -/

/-- Ceiling division dominates: `a ≤ ⌈a/k⌉ * k`. -/
theorem le_ceilDiv_mul (a k : ℕ) (hk : 0 < k) : a ≤ ((a + k - 1) / k) * k := by
  cases a with
  | zero => simp
  | succ m =>
    have he : m + 1 + k - 1 = m + k := by omega
    rw [he, Nat.add_div_right _ hk]
    have h1 := Nat.div_add_mod m k
    have h2 := Nat.mod_lt m hk
    have h3 : (m / k + 1) * k = k * (m / k) + k := by ring
    linarith [h1, h2, h3]

/-- Ceiling division stays within one slot: `⌈a/k⌉ * k ≤ a + k - 1`. -/
theorem ceilDiv_mul_le (a k : ℕ) : ((a + k - 1) / k) * k ≤ a + k - 1 :=
  Nat.div_mul_le_self _ _

/-- `Math.ceil` of a natural fraction is natural ceiling division. -/
theorem ceil_natCast_div (a k : ℕ) (hk : 0 < k) :
    Int.ceil ((a : ℚ) / (k : ℚ)) = (((a + k - 1) / k : ℕ) : ℤ) := by
  have hk0 : (0 : ℚ) < (k : ℚ) := by exact_mod_cast hk
  rw [Int.ceil_eq_iff]
  constructor
  · rw [lt_div_iff₀ hk0, Int.cast_natCast]
    have hone : 1 ≤ a + k := by omega
    have hnk : (((a + k - 1) / k * k : ℕ) : ℚ) ≤ ((a + k - 1 : ℕ) : ℚ) := by
      exact_mod_cast ceilDiv_mul_le a k
    rw [Nat.cast_mul, Nat.cast_sub hone] at hnk
    push_cast at hnk
    have hexp : ((((a + k - 1) / k : ℕ) : ℚ) - 1) * (k : ℚ)
        = (((a + k - 1) / k : ℕ) : ℚ) * (k : ℚ) - (k : ℚ) := by ring
    rw [hexp]
    linarith
  · rw [div_le_iff₀ hk0, Int.cast_natCast]
    exact_mod_cast le_ceilDiv_mul a k hk

/-- Concatenating the `k`-sized chunks `drop (i*k) |> take k` for
`i = 0, …, n-1` reconstructs the whole list once `n*k` covers its
length. -/
theorem flatMap_chunks {α : Type} (k : ℕ) :
    ∀ (n : ℕ) (l : List α), l.length ≤ n * k →
      (List.range n).flatMap (fun i => (l.drop (i * k)).take k) = l := by
  intro n
  induction n with
  | zero =>
    intro l hl
    simp only [Nat.zero_mul, Nat.le_zero] at hl
    rw [List.range_zero, List.flatMap_nil]
    exact (List.eq_nil_of_length_eq_zero hl).symm
  | succ m ih =>
    intro l hl
    rw [List.range_succ_eq_map, List.flatMap_cons, List.flatMap_map]
    have hfun : (fun i => (l.drop (Nat.succ i * k)).take k)
        = fun i => ((l.drop k).drop (i * k)).take k := by
      funext i
      rw [List.drop_drop]
      congr 1
      rw [Nat.succ_mul, Nat.add_comm]
    rw [Nat.zero_mul, List.drop_zero]
    show l.take k ++ (List.range m).flatMap
      (fun i => (l.drop (Nat.succ i * k)).take k) = l
    rw [hfun, ih (l.drop k) ?hlen]
    · exact List.take_append_drop k l
    · rw [List.length_drop, Nat.sub_le_iff_le_add]
      rw [Nat.succ_mul] at hl
      exact hl

/-- A slice `[st, st+ln)` with non-negative bounds is drop-then-take. -/
theorem jsSlice_drop_take {α : Type} (l : List α) (st ln : ℤ)
    (hst : 0 ≤ st) (hln : 0 ≤ ln) :
    jsSlice l st (st + ln) = (l.drop st.toNat).take ln.toNat := by
  rw [jsSlice, if_neg (not_lt.mpr hst), if_neg (not_lt.mpr (by linarith))]
  rcases le_or_lt st (l.length : ℤ) with hA | hB
  · rw [min_eq_left hA]
    rcases le_or_lt (st + ln) (l.length : ℤ) with hA1 | hA2
    · rw [min_eq_left hA1, List.drop_take]
      congr 1
      omega
    · rw [min_eq_right (le_of_lt hA2), Int.toNat_ofNat, List.drop_take]
      rw [List.take_of_length_le (by rw [List.length_drop]),
        List.take_of_length_le (by rw [List.length_drop]; omega)]
  · rw [min_eq_right (le_of_lt hB), min_eq_right (by linarith), Int.toNat_ofNat,
      List.take_length]
    have h2 : l.length ≤ st.toNat := by omega
    rw [List.drop_length, List.drop_of_length_le h2, List.take_nil]

/-- Sorting never changes the number of records. -/
theorem applySort_length (lcmp : String → String → ℚ) (sb : Option SortKey)
    (so : Option SortOrder) (cs : List Customer) :
    (applySort lcmp sb so cs).length = cs.length := by
  cases sb with
  | none => rfl
  | some k => simp [applySort]

/-- Overriding `page` leaves the filter cascade unchanged. -/
theorem applyFilters_setPage (o : CustomerQueryOptions) (p : ℤ)
    (cs : List Customer) :
    applyFilters { o with page := some p } cs = applyFilters o cs := rfl

/-- Overriding `page` leaves the effective limit unchanged. -/
theorem effLimit_setPage (o : CustomerQueryOptions) (p : ℤ) :
    effLimit { o with page := some p } = effLimit o := rfl

/-- The effective page of an explicitly set page. -/
theorem effPage_setPage (o : CustomerQueryOptions) (p : ℤ) :
    effPage { o with page := some p } = if p = 0 then 1 else p := rfl

theorem toNat_natCast_mul (i : ℕ) (K : ℤ) (hK : 0 ≤ K) :
    ((i : ℤ) * K).toNat = i * K.toNat := by
  have h1 : (i : ℤ) * K = ((i * K.toNat : ℕ) : ℤ) := by
    rw [Nat.cast_mul, Int.toNat_of_nonneg hK]
  rw [h1, Int.toNat_ofNat]

/-- C7: for every comparator, state, and query with 1-based positive
effective page and limit, `getCustomers` filters, then sorts, then slices
`[(page−1)·limit, page·limit)`; it reports the filtered pre-pagination
count as `total` and `ceil(total/limit)` as `totalPages`; the returned
slice holds at most `limit` records; and concatenating the slices of pages
`1..totalPages` in order reconstructs the whole filtered, sorted sequence,
each record exactly once. -/
theorem getCustomers_pagination (lcmp : String → String → ℚ)
    (s : ServiceState) (o : CustomerQueryOptions)
    (hp : 1 ≤ effPage o) (hl : 1 ≤ effLimit o) :
    ∃ pr, getCustomers lcmp s o = .ok pr ∧
      pr.total = (applyFilters o s.customers).length ∧
      pr.totalPages = Int.ceil ((pr.total : ℚ) / (effLimit o : ℚ)) ∧
      pr.data = jsSlice
        (applySort lcmp o.sortBy o.sortOrder (applyFilters o s.customers))
        ((effPage o - 1) * effLimit o)
        ((effPage o - 1) * effLimit o + effLimit o) ∧
      (pr.data.length : ℤ) ≤ effLimit o ∧
      (List.range pr.totalPages.toNat).flatMap (fun i =>
          pagData (getCustomers lcmp s { o with page := some ((i : ℤ) + 1) }))
        = applySort lcmp o.sortBy o.sortOrder (applyFilters o s.customers) := by
  refine ⟨_, rfl, rfl, rfl, rfl, ?_, ?_⟩
  · show ((jsSlice
      (applySort lcmp o.sortBy o.sortOrder (applyFilters o s.customers))
      ((effPage o - 1) * effLimit o)
      ((effPage o - 1) * effLimit o + effLimit o)).length : ℤ) ≤ effLimit o
    rw [jsSlice_drop_take _ _ _ (mul_nonneg (by linarith) (by linarith))
      (by linarith)]
    have hle := List.length_take_le (effLimit o).toNat
      ((applySort lcmp o.sortBy o.sortOrder (applyFilters o s.customers)).drop
        ((effPage o - 1) * effLimit o).toNat)
    omega
  · show (List.range (Int.ceil
        (((applyFilters o s.customers).length : ℚ) / ((effLimit o) : ℚ))).toNat).flatMap
      (fun i => pagData (getCustomers lcmp s { o with page := some ((i : ℤ) + 1) }))
      = applySort lcmp o.sortBy o.sortOrder (applyFilters o s.customers)
    have hK0 : (0 : ℤ) ≤ effLimit o := by linarith
    have hKt0 : 0 < (effLimit o).toNat := by omega
    have hKq : ((effLimit o : ℤ) : ℚ) = (((effLimit o).toNat : ℕ) : ℚ) := by
      rw [← Int.toNat_of_nonneg hK0]
      push_cast
      rfl
    have htp : (Int.ceil
        (((applyFilters o s.customers).length : ℚ) / ((effLimit o) : ℚ))).toNat
        = ((applyFilters o s.customers).length + (effLimit o).toNat - 1)
            / (effLimit o).toNat := by
      rw [hKq, ceil_natCast_div _ _ hKt0, Int.toNat_ofNat]
    have hterm : ∀ i : ℕ,
        pagData (getCustomers lcmp s { o with page := some ((i : ℤ) + 1) })
          = ((applySort lcmp o.sortBy o.sortOrder
              (applyFilters o s.customers)).drop (i * (effLimit o).toNat)).take
              (effLimit o).toNat := by
      intro i
      simp only [getCustomers, pagData]
      rw [applyFilters_setPage, effLimit_setPage, effPage_setPage,
        if_neg (show ¬((i : ℤ) + 1 = 0) by omega), add_sub_cancel_right]
      rw [jsSlice_drop_take _ _ _ (mul_nonneg (by positivity) hK0) hK0]
      rw [toNat_natCast_mul _ _ hK0]
    rw [funext hterm, htp]
    refine flatMap_chunks (effLimit o).toNat _ _ ?_
    rw [applySort_length]
    exact le_ceilDiv_mul _ _ hKt0

/-- Witness for C7: page 1 with limit 1 on a two-customer state, no filters
and no sort. -/
theorem getCustomers_pagination_witness :
    ∃ pr, getCustomers (fun _ _ => 0) ⟨[janeOut, carlOut], 11⟩
        { page := some 1, limit := some 1 } = .ok pr ∧
      pr.total = 2 ∧ (pr.data.length : ℤ) ≤ 1 := by
  obtain ⟨pr, hok, h1, h2, h3, h4, h5⟩ :=
    getCustomers_pagination (fun _ _ => 0) ⟨[janeOut, carlOut], 11⟩
      { page := some 1, limit := some 1 } (by decide) (by decide)
  exact ⟨pr, hok, by rw [h1]; decide, h4⟩

end CustomerSvc
